import Mathlib

/-!
Verification of the fay wallpaper picker core: a shallow embedding of the
backend registry, mode resolution, last-selection persistence, the
asynchronous single-slot action runner, the thumbnail store and the texture
cache, with theorems about the behaviours the design documents.

Python floats are modelled by rationals; all geometry values involved are
small integers, so every division and comparison below is exact in both
representations.  File-system and GPU effects are modelled by explicit
state records passed through the functions that touch them.
-/

namespace Fay

/-! ## Mode resolution (fay/backends/base.py) -/

def autoAspectFactor : ℚ := 175 / 100

def autoSmallFactor : ℚ := 78 / 100

def autoSquareishMin : ℚ := 80 / 100

def autoSquareishMax : ℚ := 125 / 100

/-- Embedding of `resolve_auto_mode(image_size, screen_width, screen_height)`:
pure resolution of the "auto" placement mode from image and screen pixel
dimensions. -/
def resolve_auto_mode (image_size : Option (ℤ × ℤ)) (screen_width screen_height : ℤ) :
    String :=
  match image_size with
  | none => "fill"
  | some (iw, ih) =>
    if iw ≤ 0 ∨ ih ≤ 0 then "fill"
    else if screen_width ≤ 0 ∨ screen_height ≤ 0 then "fill"
    else
      let wq : ℚ := (iw : ℚ) / (screen_width : ℚ)
      let hq : ℚ := (ih : ℚ) / (screen_height : ℚ)
      let sq : ℚ := (screen_width : ℚ) / (screen_height : ℚ)
      let iq : ℚ := (iw : ℚ) / (ih : ℚ)
      if wq ≤ autoSmallFactor ∧ hq ≤ autoSmallFactor then "center"
      else if (autoSquareishMin ≤ iq ∧ iq ≤ autoSquareishMax) ∧ (1 ≤ wq ∧ 1 ≤ hq) then
        "fit"
      else if ¬ (screen_height ≤ screen_width ↔ ih ≤ iw) ∨
          autoAspectFactor ≤ max (sq / iq) (iq / sq) then "center"
      else "fill"

/-- Embedding of `effective_mode(requested_mode, image_path, context)`.  The
side-effecting dimension probe (`probe_image_size`, reading the image header
through the cache) is abstracted as its result `probed`. -/
def effective_mode (requested_mode : String) (probed : Option (ℤ × ℤ))
    (screen_width screen_height : ℤ) : String :=
  if requested_mode ≠ "auto" then requested_mode
  else resolve_auto_mode probed screen_width screen_height

/-! ## Environment model (fay/models.py, fay/env.py) -/

/-- Character-list prefix test, used to embed Python's `in` substring test. -/
def listStartsWith : List Char → List Char → Bool
  | [], _ => true
  | _ :: _, [] => false
  | a :: as, b :: bs => a == b && listStartsWith as bs

/-- Character-list infix test. -/
def listHasInfix (needle : List Char) : List Char → Bool
  | [] => needle.isEmpty
  | c :: rest => listStartsWith needle (c :: rest) || listHasInfix needle rest

/-- Python's `needle in hay` on strings. -/
def strContains (hay needle : String) : Bool :=
  listHasInfix needle.toList hay.toList

/-- Embedding of the `EnvironmentInfo` dataclass; the command set is a list. -/
structure EnvironmentInfo where
  session_type : String
  desktop_session : String
  current_desktop : String
  wayland_display : String
  x_display : String
  sway : Bool
  hyprland : Bool
  commands : List String
deriving DecidableEq, Repr

/-- `EnvironmentInfo.is_wayland` property. -/
def EnvironmentInfo.is_wayland (env : EnvironmentInfo) : Bool :=
  env.session_type == "wayland" || !(env.wayland_display == "")

/-- `EnvironmentInfo.is_x11` property. -/
def EnvironmentInfo.is_x11 (env : EnvironmentInfo) : Bool :=
  env.session_type == "x11" || !(env.x_display == "")

/-- `has_command(env, command)` from fay/env.py. -/
def has_command (env : EnvironmentInfo) (command : String) : Bool :=
  env.commands.contains command

/-- `is_gnome_session(env)` from fay/env.py. -/
def is_gnome_session (env : EnvironmentInfo) : Bool :=
  let value := (env.current_desktop ++ ":" ++ env.desktop_session).toLower
  strContains value "gnome" || strContains value "ubuntu"

/-! ## Backends and the registry (fay/backends/*.py) -/

/-- The backend variants registered by `BackendRegistry.__init__`; the swww
variant carries its bound binary name, as in `SwwwBackend(binary)`. -/
inductive Backend where
  | gnome : Backend
  | swww (binary : String) : Backend
  | hyprpaper : Backend
  | swaybg : Backend
  | feh : Backend
deriving DecidableEq, Repr

/-- Each backend's stable string identifier. -/
def Backend.id : Backend → String
  | .gnome => "gnome"
  | .swww binary => if binary = "swww" then "swww" else "awww"
  | .hyprpaper => "hyprpaper"
  | .swaybg => "swaybg"
  | .feh => "feh"

/-- Each backend's `is_available(env)` predicate, from the backend modules. -/
def Backend.is_available : Backend → EnvironmentInfo → Bool
  | .gnome, env => has_command env "gsettings" && is_gnome_session env
  | .swww binary, env => env.is_wayland && has_command env binary
  | .hyprpaper, env => env.hyprland && has_command env "hyprctl"
  | .swaybg, env => env.sway && has_command env "swaymsg"
  | .feh, env => has_command env "feh" && env.is_x11

/-- Outcome of `BackendRegistry.resolve`. -/
structure BackendChoice where
  backend : Option Backend
  reason : String
deriving DecidableEq, Repr

/-- The registration order of `BackendRegistry.__init__`. -/
def registryBackends : List Backend :=
  [.gnome, .swww "swww", .swww "awww", .hyprpaper, .swaybg, .feh]

/-- The `by_id` dictionary (all six registered ids are distinct, so the
comprehension keeps every backend; lookup finds the matching one). -/
def byId (backend_id : String) : Option Backend :=
  registryBackends.find? (fun b => b.id == backend_id)

/-- `BackendRegistry.get`, with its swww-to-awww fallback. -/
def get (backend_id : String) : Option Backend :=
  if backend_id = "swww" then
    match byId "swww" with
    | some primary => some primary
    | none => byId "awww"
  else byId backend_id

/-- `BackendRegistry.available`. -/
def available (env : EnvironmentInfo) : List Backend :=
  registryBackends.filter (fun b => b.is_available env)

/-- The Hyprland candidate loop of `resolve`: first available of the listed
ids found through `by_id`. -/
def firstAvailOf (env : EnvironmentInfo) : List String → Option Backend
  | [] => none
  | candidate :: rest =>
    match byId candidate with
    | some backend =>
      if backend.is_available env then some backend else firstAvailOf env rest
    | none => firstAvailOf env rest

/-- GNOME step of auto resolution. -/
def autoGnome (env : EnvironmentInfo) : Option BackendChoice :=
  if is_gnome_session env then
    match byId "gnome" with
    | some backend =>
      if backend.is_available env then some ⟨some backend, "Detected GNOME session"⟩
      else none
    | none => none
  else none

/-- Hyprland step of auto resolution. -/
def autoHyprland (env : EnvironmentInfo) : Option BackendChoice :=
  if env.hyprland then
    match firstAvailOf env ["swww", "awww", "hyprpaper"] with
    | some backend => some ⟨some backend, "Detected Hyprland session"⟩
    | none => none
  else none

/-- Sway step of auto resolution. -/
def autoSway (env : EnvironmentInfo) : Option BackendChoice :=
  if env.sway then
    match byId "swaybg" with
    | some backend =>
      if backend.is_available env then some ⟨some backend, "Detected Sway session"⟩
      else none
    | none => none
  else none

/-- X11 step of auto resolution. -/
def autoX11 (env : EnvironmentInfo) : Option BackendChoice :=
  if env.is_x11 then
    match byId "feh" with
    | some backend =>
      if backend.is_available env then some ⟨some backend, "Detected X11 session"⟩
      else none
    | none => none
  else none

/-- The `backend_id == "auto"` branch of `BackendRegistry.resolve`. -/
def resolveAuto (env : EnvironmentInfo) : BackendChoice :=
  match autoGnome env with
  | some c => c
  | none =>
    match autoHyprland env with
    | some c => c
    | none =>
      match autoSway env with
      | some c => c
      | none =>
        match autoX11 env with
        | some c => c
        | none =>
          match available env with
          | backend :: _ => ⟨some backend, "Using first available backend"⟩
          | [] => ⟨none, "No supported wallpaper backend detected"⟩

/-- `BackendRegistry.resolve(env, backend_id)`. -/
def resolve (env : EnvironmentInfo) (backend_id : String) : BackendChoice :=
  if backend_id ≠ "auto" then
    match get backend_id with
    | none => ⟨none, "Unknown backend: " ++ backend_id⟩
    | some backend =>
      if backend.is_available env then
        ⟨some backend, "Selected backend \x27" ++ backend.id ++ "\x27"⟩
      else
        ⟨none, "Backend \x27" ++ backend_id ++ "\x27 is not available in this environment."⟩
  else resolveAuto env

/-- The six registered backend identifiers, in registration order. -/
def registryIds : List String :=
  registryBackends.map Backend.id

/-- How the claim describes auto resolution: desktop-settings backend when a
GNOME session is signaled, then (under the Hyprland signal) swww, awww,
hyprpaper in order, then the Sway IPC backend under the Sway signal, then the
X11 feh backend under the X11 signal, each taken when available; otherwise
the first available backend in registration order, otherwise nothing. -/
def resolveAutoSpec (env : EnvironmentInfo) : Option Backend :=
  if is_gnome_session env && Backend.gnome.is_available env then some .gnome
  else if env.hyprland && (Backend.swww "swww").is_available env then some (.swww "swww")
  else if env.hyprland && (Backend.swww "awww").is_available env then some (.swww "awww")
  else if env.hyprland && Backend.hyprpaper.is_available env then some .hyprpaper
  else if env.sway && Backend.swaybg.is_available env then some .swaybg
  else if env.is_x11 && Backend.feh.is_available env then some .feh
  else (available env).head?

/-! ## Association-list helpers (Python dict lookup / OrderedDict erase) -/

/-- First-match lookup in an association list. -/
def lookupKey {α : Type} : List (String × α) → String → Option α
  | [], _ => none
  | (k, v) :: rest, key => if k = key then some v else lookupKey rest key

/-- Remove the first binding of a key from an association list. -/
def eraseKeyFirst {α : Type} : List (String × α) → String → List (String × α)
  | [], _ => []
  | (k, v) :: rest, key => if k = key then rest else (k, v) :: eraseKeyFirst rest key

/-! ## Persisted last-selection state (fay/app.py) -/

/-- JSON values as produced by `json.loads` for the last-selection file. -/
inductive Json where
  | str (s : String) : Json
  | num (n : ℤ) : Json
  | bool (b : Bool) : Json
  | null : Json
  | obj (fields : List (String × Json)) : Json

/-- The `WallpaperState` dataclass; `backend_state` is an opaque mapping. -/
structure WallpaperState where
  backend_id : String
  image_path : String
  mode : String
  backend_state : List (String × Json)

/-- Embedding of `load_last_selection` from the point where the JSON payload
object has been parsed (the missing-file and parse-failure paths both return
none upstream of the field checks modelled here). -/
def load_last_selection (payload : List (String × Json)) : Option WallpaperState :=
  match lookupKey payload "backend_id", lookupKey payload "image_path" with
  | some (.str backend_id), some (.str image_path) =>
    let mode : String :=
      match lookupKey payload "mode" with
      | some (.str s) => s
      | _ => "fill"
    let backend_state : List (String × Json) :=
      match lookupKey payload "backend_state" with
      | some (.obj fields) => fields
      | _ => []
    some ⟨backend_id, image_path, mode, backend_state⟩
  | _, _ => none

/-! ## Backend results, restore and apply (fay/backends/base.py, gnome.py, feh.py) -/

/-- The `BackendResult` dataclass. -/
structure BackendResult where
  ok : Bool
  error : Option String
deriving DecidableEq, Repr

/-- `Path.expanduser()` on the stored image path, with the home directory
as a parameter. -/
def expandUser (home p : String) : String :=
  if p = "~" then home
  else if p.startsWith "~/" then home ++ p.drop 1
  else p

/-- The path the `WallpaperState.path` property denotes. -/
def statePath (home : String) (state : WallpaperState) : String :=
  expandUser home state.image_path

/-- Embedding of `CommandBackend.restore`: file existence is the `pathExists`
oracle, and the variant's `apply(image, mode, context, persist_now=False)` is
the `applyFn` parameter returning its result and the external invocations it
issued.  The second component of the output is the list of invocations the
restore performed. -/
def commandRestore (pathExists : String → Bool)
    (applyFn : String → String → BackendResult × List (List String))
    (home : String) (state : WallpaperState) : BackendResult × List (List String) :=
  let image := statePath home state
  if pathExists image then applyFn image state.mode
  else (⟨false, some ("Wallpaper not found: " ++ image)⟩, [])

/-- `GNOME_MODE_MAP` from fay/backends/gnome.py. -/
def GNOME_MODE_MAP : List (String × String) :=
  [("fill", "zoom"), ("fit", "scaled"), ("center", "centered"), ("tile", "wallpaper")]

/-- `FEH_MODE_MAP` from fay/backends/feh.py. -/
def FEH_MODE_MAP : List (String × String) :=
  [("fill", "bg-fill"), ("fit", "bg-max"), ("center", "bg-center"), ("tile", "bg-tile")]

/-- Run a command list in order, stopping at the first failure, as the loop
in `GnomeBackend.apply` does; returns the final result and the invocations
actually issued. -/
def runAll (run : List String → BackendResult) :
    List (List String) → BackendResult × List (List String)
  | [] => (⟨true, none⟩, [])
  | c :: rest =>
    let r := run c
    if r.ok then
      let (r₂, t) := runAll run rest
      (r₂, c :: t)
    else (r, [c])

/-- Embedding of `GnomeBackend.apply`: `run` models `run_command`, `asUri`
models `image_path.resolve().as_uri()`, and the image-size probe inside
`effective_mode` is abstracted as its result `probed`.  Returns the result
and the invocations issued. -/
def gnome_apply (run : List String → BackendResult) (asUri : String → String)
    (image_path mode : String) (probed : Option (ℤ × ℤ)) (sw sh : ℤ)
    (persist_now : Bool) : BackendResult × List (List String) :=
  let resolved := effective_mode mode probed sw sh
  let gnome_mode := (lookupKey GNOME_MODE_MAP resolved).getD "zoom"
  let uri := asUri image_path
  runAll run
    [["gsettings", "set", "org.gnome.desktop.background", "picture-options", gnome_mode],
     ["gsettings", "set", "org.gnome.desktop.background", "picture-uri", uri],
     ["gsettings", "set", "org.gnome.desktop.background", "picture-uri-dark", uri]]

/-- Embedding of `FehBackend.apply`; same conventions as `gnome_apply`. -/
def feh_apply (run : List String → BackendResult) (image_path mode : String)
    (probed : Option (ℤ × ℤ)) (sw sh : ℤ) (persist_now : Bool) :
    BackendResult × List (List String) :=
  let resolved := effective_mode mode probed sw sh
  let feh_mode := (lookupKey FEH_MODE_MAP resolved).getD "bg-fill"
  let command :=
    ["feh"] ++ (if persist_now then [] else ["--no-fehbg"]) ++
      ["--" ++ feh_mode, image_path]
  (run command, [command])

/-- Modelled from the spec: the durable-store effect of one external
invocation, which is behaviour of the external tools and so absent from
src/.  Per the spec, desktop-settings key writes (`gsettings set` on the
background schema) durably update the settings database the session restores
from; a `feh` invocation rewrites the `~/.fehbg` restore file unless the
no-persist flag `--no-fehbg` is passed; compositor IPC calls set only
in-memory daemon state. -/
def writesDurableStore (command : List String) : Bool :=
  match command with
  | "gsettings" :: "set" :: _ => true
  | "feh" :: rest => decide ("--no-fehbg" ∉ rest)
  | _ => false

/-! ## AsyncActionRunner (fay/app.py)

The runner is a guarded single-slot queue served by exactly one worker
thread.  Actions are identified by naturals; `busy` is the list of actions
the worker is currently executing (the worker's local variable between the
take and the final clearing of `_running`), `executed` logs every action
that was ever started.  The events are the lock-protected atomic sections of
the source: `submit`, the worker's take, the worker's completion, and the
closing part of `shutdown`. -/

structure RunnerState where
  pending : Option ℕ
  busy : List ℕ
  closed : Bool
  executed : List ℕ
deriving DecidableEq, Repr

inductive RunnerEv where
  | submit (a : ℕ) : RunnerEv
  | take : RunnerEv
  | finish : RunnerEv
  | shutdown : RunnerEv
deriving DecidableEq, Repr

/-- Fresh runner: no pending action, worker idle, open, nothing executed. -/
def runnerInit : RunnerState := ⟨none, [], false, []⟩

/-- One atomic event.  `submit` drops the action when closed and otherwise
overwrites the slot; the worker's `take` fires only when it is idle and an
action is pending, and atomically clears the slot; `finish` marks the worker
idle again; `shutdown` closes the runner and clears the slot. -/
def runnerStep (s : RunnerState) : RunnerEv → RunnerState
  | .submit a => if s.closed then s else { s with pending := some a }
  | .take =>
    match s.busy, s.pending with
    | [], some a =>
      { s with pending := none, busy := [a], executed := s.executed ++ [a] }
    | _, _ => s
  | .finish =>
    match s.busy with
    | _ :: _ => { s with busy := [] }
    | [] => s
  | .shutdown => { s with closed := true, pending := none }

/-- Run a sequence of events. -/
def runnerRun (s : RunnerState) (t : List RunnerEv) : RunnerState :=
  t.foldl runnerStep s

/-- The action is nowhere in the runner: not pending, not executing, never
executed. -/
def runnerAvoids (a : ℕ) (s : RunnerState) : Prop :=
  s.pending ≠ some a ∧ a ∉ s.busy ∧ a ∉ s.executed

/-! ## ThumbnailStore (fay/media.py)

The file system, the image decoder and the exporter are the `ThumbFS`
oracle: `path_for` is the deterministic cache-key function
`thumbnail_name_for` (resolved path, stat and target box hashed into the
destination path), `fileExists` is `Path.exists`, `dimFile` holds the parsed
integer pair of a sidecar `.dim` file, `probe` gives the decoder's reported
source dimensions, and `exportOk` tells whether exporting (`rl.export_image`) a
thumbnail at a path succeeds. -/

structure ThumbFS where
  path_for : String → String
  fileExists : String → Bool
  dimFile : String → Option (ℤ × ℤ)
  probe : String → ℤ × ℤ
  exportOk : String → Bool

/-- The mutable fields of `ThumbnailStore`. -/
structure ThumbStore where
  pending : List (String × String)
  pending_set : List String
  failed : List String
  dims_cache : List (String × (ℤ × ℤ))

/-- A fresh `ThumbnailStore`. -/
def thumbInit : ThumbStore := ⟨[], [], [], []⟩

/-- The sidecar path `<name>.dim` next to a thumbnail. -/
def dimPathFor (thumb : String) : String := thumb ++ ".dim"

/-- `_read_dimensions_file`: parsed pair, rejecting non-positive entries. -/
def read_dimensions_file (fs : ThumbFS) (path : String) : Option (ℤ × ℤ) :=
  match fs.dimFile path with
  | some (w, h) => if w ≤ 0 ∨ h ≤ 0 then none else some (w, h)
  | none => none

/-- `get_cached_dimensions`, memoizing a sidecar read into `dims_cache`. -/
def get_cached_dimensions (fs : ThumbFS) (st : ThumbStore) (image_path : String) :
    ThumbStore × Option (ℤ × ℤ) :=
  match lookupKey st.dims_cache image_path with
  | some d => (st, some d)
  | none =>
    match read_dimensions_file fs (dimPathFor (fs.path_for image_path)) with
    | some d => ({ st with dims_cache := (image_path, d) :: st.dims_cache }, some d)
    | none => (st, none)

/-- Update the dim-file content the oracle reports for one path. -/
def setDimFile (fs : ThumbFS) (path : String) (v : Option (ℤ × ℤ)) : ThumbFS :=
  { fs with dimFile := fun q => if q = path then v else fs.dimFile q }

/-- Update the existence the oracle reports for one path. -/
def setFileExists (fs : ThumbFS) (path : String) (v : Bool) : ThumbFS :=
  { fs with fileExists := fun q => if q = path then v else fs.fileExists q }

/-- `remember_dimensions`: memoize positive dimensions and write the sidecar. -/
def remember_dimensions (fs : ThumbFS) (st : ThumbStore) (image_path : String)
    (w h : ℤ) : ThumbStore × ThumbFS :=
  if w ≤ 0 ∨ h ≤ 0 then (st, fs)
  else
    ({ st with dims_cache := (image_path, (w, h)) :: st.dims_cache },
      setDimFile fs (dimPathFor (fs.path_for image_path)) (some (w, h)))

/-- `ThumbnailStore.request`: always returns the destination path, enqueuing
a build job unless the key is already pending or failed (or the thumbnail
exists with known dimensions). -/
def request (fs : ThumbFS) (st : ThumbStore) (image_path : String) :
    ThumbStore × String :=
  let thumb := fs.path_for image_path
  let key := thumb
  let (st₁, dims) := get_cached_dimensions fs st image_path
  if fs.fileExists thumb then
    if dims = none ∧ key ∉ st₁.pending_set ∧ key ∉ st₁.failed then
      ({ st₁ with
          pending := st₁.pending ++ [(image_path, thumb)],
          pending_set := key :: st₁.pending_set }, thumb)
    else (st₁, thumb)
  else
    if key ∉ st₁.pending_set ∧ key ∉ st₁.failed then
      ({ st₁ with
          pending := st₁.pending ++ [(image_path, thumb)],
          pending_set := key :: st₁.pending_set }, thumb)
    else (st₁, thumb)

/-- `_probe_dimensions`: decoder result, rejecting non-positive sizes. -/
def probe_dimensions (fs : ThumbFS) (image_path : String) : Option (ℤ × ℤ) :=
  let (w, h) := fs.probe image_path
  if w ≤ 0 ∨ h ≤ 0 then none else some (w, h)

/-- `_build_thumbnail`: decode, maybe resize (not observable here), export;
a failed decode or export yields no result, a successful export creates the
destination file. -/
def build_thumbnail (fs : ThumbFS) (image_path thumb : String) :
    (Bool × Option (ℤ × ℤ)) × ThumbFS :=
  let (w, h) := fs.probe image_path
  if w ≤ 0 ∨ h ≤ 0 then ((false, none), fs)
  else if fs.exportOk thumb then ((true, some (w, h)), setFileExists fs thumb true)
  else ((false, none), fs)

/-- `ThumbnailStore.process(max_jobs)`: dequeue up to `max_jobs` FIFO jobs;
an already-existing destination only refreshes dimensions; a failed build
unlinks the destination and marks the key failed. -/
def process (fs : ThumbFS) (st : ThumbStore) : ℕ → ThumbStore × ThumbFS
  | 0 => (st, fs)
  | n + 1 =>
    match h : st.pending with
    | [] => (st, fs)
    | (image_path, thumb) :: rest =>
      let key := thumb
      let st₁ : ThumbStore :=
        { st with pending := rest, pending_set := st.pending_set.erase key }
      if fs.fileExists thumb then
        let (st₂, dims) := get_cached_dimensions fs st₁ image_path
        match dims with
        | some _ => process fs st₂ n
        | none =>
          match probe_dimensions fs image_path with
          | some (w, h) =>
            let (st₃, fs₃) := remember_dimensions fs st₂ image_path w h
            process fs₃ st₃ n
          | none => process fs st₂ n
      else
        let bo := build_thumbnail fs image_path thumb
        let ok := bo.1.1
        let (st₂, fs₂) :=
          match bo.1.2 with
          | some (w, h) =>
            if ok then remember_dimensions bo.2 st₁ image_path w h else (st₁, bo.2)
          | none => (st₁, bo.2)
        if ok then process fs₂ st₂ n
        else
          process (setFileExists fs₂ thumb false)
            { st₂ with failed := key :: st₂.failed } n

/-! ## TextureCache (fay/media.py)

GPU handles are naturals (`texture.id`); id 0 is raylib's failed load.  The
`gpu` oracle is `rl.load_texture`; the third output component lists the ids
released (`rl.unload_texture`) during the call. -/

structure TexCache where
  max_items : ℕ
  cache : List (String × ℕ)
  failed : List String

/-- A fresh `TextureCache` with the default bound of 24 entries. -/
def texInit : TexCache := ⟨24, [], []⟩

/-- `OrderedDict.move_to_end(key)`: re-append the key's binding at the
most-recently-used end. -/
def moveToEnd (cache : List (String × ℕ)) (key : String) : List (String × ℕ) :=
  match lookupKey cache key with
  | some v => eraseKeyFirst cache key ++ [(key, v)]
  | none => cache

/-- `TextureCache.get`: resolve through `ThumbnailStore.request`, serve hits
by recency update, remember failed loads, upload new handles, and evict the
least-recently-used entry (releasing its handle) past `max_items`. -/
def texGet (fs : ThumbFS) (gpu : String → ℕ) (ts : ThumbStore) (tc : TexCache)
    (image_path : String) : ThumbStore × TexCache × List ℕ × Option ℕ :=
  let (ts₁, thumb) := request fs ts image_path
  let key := thumb
  match lookupKey tc.cache key with
  | some tex => (ts₁, { tc with cache := moveToEnd tc.cache key }, [], some tex)
  | none =>
    if key ∈ tc.failed then (ts₁, tc, [], none)
    else if fs.fileExists thumb = false then (ts₁, tc, [], none)
    else
      let tex := gpu thumb
      if tex = 0 then (ts₁, { tc with failed := key :: tc.failed }, [], none)
      else
        let grown := tc.cache ++ [(key, tex)]
        if tc.max_items < grown.length then
          match grown with
          | [] => (ts₁, { tc with cache := grown }, [], some tex)
          | (_, oldest) :: rest =>
            (ts₁, { tc with cache := rest },
              if oldest ≠ 0 then [oldest] else [], some tex)
        else (ts₁, { tc with cache := grown }, [], some tex)

/-! ## Helper lemmas -/

theorem autoGnome_eq (env : EnvironmentInfo) :
    autoGnome env =
      (if is_gnome_session env && Backend.gnome.is_available env then
        some ⟨some .gnome, "Detected GNOME session"⟩ else none) := by
  unfold autoGnome
  have hb : byId "gnome" = some .gnome := rfl
  rw [hb]
  cases hg : is_gnome_session env <;>
    cases ha : Backend.gnome.is_available env <;> simp [hg, ha]

theorem autoHyprland_eq (env : EnvironmentInfo) :
    autoHyprland env =
      (if env.hyprland && (Backend.swww "swww").is_available env then
        some ⟨some (.swww "swww"), "Detected Hyprland session"⟩
      else if env.hyprland && (Backend.swww "awww").is_available env then
        some ⟨some (.swww "awww"), "Detected Hyprland session"⟩
      else if env.hyprland && Backend.hyprpaper.is_available env then
        some ⟨some .hyprpaper, "Detected Hyprland session"⟩
      else none) := by
  have h1 : byId "swww" = some (.swww "swww") := rfl
  have h2 : byId "awww" = some (.swww "awww") := rfl
  have h3 : byId "hyprpaper" = some .hyprpaper := rfl
  unfold autoHyprland
  simp only [firstAvailOf, h1, h2, h3]
  cases hh : env.hyprland <;>
    cases a1 : (Backend.swww "swww").is_available env <;>
      cases a2 : (Backend.swww "awww").is_available env <;>
        cases a3 : Backend.hyprpaper.is_available env <;>
          simp [hh, a1, a2, a3]

theorem autoSway_eq (env : EnvironmentInfo) :
    autoSway env =
      (if env.sway && Backend.swaybg.is_available env then
        some ⟨some .swaybg, "Detected Sway session"⟩ else none) := by
  unfold autoSway
  have hb : byId "swaybg" = some .swaybg := rfl
  rw [hb]
  cases hg : env.sway <;> cases ha : Backend.swaybg.is_available env <;> simp [hg, ha]

theorem autoX11_eq (env : EnvironmentInfo) :
    autoX11 env =
      (if env.is_x11 && Backend.feh.is_available env then
        some ⟨some .feh, "Detected X11 session"⟩ else none) := by
  unfold autoX11
  have hb : byId "feh" = some .feh := rfl
  rw [hb]
  cases hg : env.is_x11 <;> cases ha : Backend.feh.is_available env <;> simp [hg, ha]

theorem byId_eq_none_iff (bid : String) : byId bid = none ↔ bid ∉ registryIds := by
  unfold byId registryIds
  rw [List.find?_eq_none]
  constructor
  · intro h hm
    rcases List.mem_map.mp hm with ⟨b, hb, hid⟩
    exact h b hb (beq_iff_eq.mpr hid)
  · intro h b hb
    simp only [beq_iff_eq]
    intro hid
    exact h (List.mem_map.mpr ⟨b, hb, hid⟩)

theorem get_eq_none_iff (bid : String) : get bid = none ↔ bid ∉ registryIds := by
  unfold get
  by_cases hs : bid = "swww"
  · subst hs
    have h1 : (if "swww" = "swww" then
        match byId "swww" with
        | some primary => some primary
        | none => byId "awww"
      else byId "swww") = some (Backend.swww "swww") := rfl
    rw [h1]
    simp [registryIds, registryBackends, Backend.id]
  · rw [if_neg hs]
    exact byId_eq_none_iff bid

theorem fehMode_cases (resolved : String) :
    (lookupKey FEH_MODE_MAP resolved).getD "bg-fill" = "bg-fill" ∨
      (lookupKey FEH_MODE_MAP resolved).getD "bg-fill" = "bg-max" ∨
      (lookupKey FEH_MODE_MAP resolved).getD "bg-fill" = "bg-center" ∨
      (lookupKey FEH_MODE_MAP resolved).getD "bg-fill" = "bg-tile" := by
  simp only [FEH_MODE_MAP, lookupKey]
  split
  · simp
  · split
    · simp
    · split
      · simp
      · split
        · simp
        · simp

/-! ## Claim theorems -/

/-- Claim C1, counterexample: for screen 1920×1080 and image 3840×2160,
`resolve_auto_mode` does not return "fit" (the 16:9 image is outside the
squarish aspect band [0.8, 1.25], so step 4 of the auto heuristic does not
fire). -/
theorem auto_mode_3840x2160_not_fit :
    resolve_auto_mode (some (3840, 2160)) 1920 1080 ≠ "fit" := by
  simp only [resolve_auto_mode]
  norm_num [autoSmallFactor, autoSquareishMin, autoSquareishMax, autoAspectFactor]
  decide

/-- Claim C1, amended: for screen 1920×1080 and image 3840×2160, auto mode
resolution returns "fill" — the ratios to the screen are 2.0 in both
dimensions, the aspect ratio 16:9 ≈ 1.78 is not squarish, the orientations
agree and the aspect factor is 1. -/
theorem auto_mode_3840x2160_fill :
    resolve_auto_mode (some (3840, 2160)) 1920 1080 = "fill" := by
  simp only [resolve_auto_mode]
  norm_num [autoSmallFactor, autoSquareishMin, autoSquareishMax, autoAspectFactor]

/-- Claim C5: auto mode resolution is total — for every image size (absent or
non-positive included) and screen size it returns one of "fill", "fit",
"center" and never "auto" — and resolving a non-"auto" mode through
`effective_mode` returns it unchanged. -/
theorem mode_resolution_total_idempotent (image_size : Option (ℤ × ℤ)) (w h : ℤ)
    (probed : Option (ℤ × ℤ)) (m : String) :
    (resolve_auto_mode image_size w h = "fill" ∨ resolve_auto_mode image_size w h = "fit" ∨
      resolve_auto_mode image_size w h = "center") ∧
      resolve_auto_mode image_size w h ≠ "auto" ∧
      (m ≠ "auto" → effective_mode m probed w h = m) := by
  refine ⟨?_, ?_, ?_⟩
  · unfold resolve_auto_mode
    rcases image_size with _ | ⟨iw, ih⟩
    · simp
    · dsimp only
      split
      · simp
      · split
        · simp
        · split
          · simp
          · split
            · simp
            · split <;> simp
  · unfold resolve_auto_mode
    rcases image_size with _ | ⟨iw, ih⟩
    · simp
    · dsimp only
      split
      · simp
      · split
        · simp
        · split
          · simp
          · split
            · simp
            · split <;> simp
  · intro hm
    unfold effective_mode
    rw [if_pos hm]

/-- Witness for C5 at image 100×80, screen 1920×1080, requested mode "fit". -/
theorem mode_resolution_total_idempotent_witness :
    ((resolve_auto_mode (some (100, 80)) 1920 1080 = "fill" ∨
        resolve_auto_mode (some (100, 80)) 1920 1080 = "fit" ∨
        resolve_auto_mode (some (100, 80)) 1920 1080 = "center") ∧
      resolve_auto_mode (some (100, 80)) 1920 1080 ≠ "auto" ∧
      ("fit" ≠ "auto" → effective_mode "fit" none 1920 1080 = "fit")) :=
  mode_resolution_total_idempotent (some (100, 80)) 1920 1080 none "fit"

/-- Claim C6: for every environment, `resolve(env, "auto")` picks exactly the
backend described by the priority order (GNOME settings backend under a GNOME
session signal, then swww/awww/hyprpaper under the Hyprland signal, then the
Sway backend, then feh under X11, then the first available in registration
order), and when nothing is available it returns no backend with the reason
"No supported wallpaper backend detected". -/
theorem resolve_auto_matches_spec (env : EnvironmentInfo) :
    (resolve env "auto").backend = resolveAutoSpec env ∧
      (resolveAutoSpec env = none →
        resolve env "auto" = ⟨none, "No supported wallpaper backend detected"⟩) := by
  have h0 : resolve env "auto" = resolveAuto env := rfl
  rw [h0]
  unfold resolveAuto resolveAutoSpec
  rw [autoGnome_eq, autoHyprland_eq, autoSway_eq, autoX11_eq]
  cases c1 : is_gnome_session env && Backend.gnome.is_available env
  case true => simp [c1]
  case false =>
  simp only [c1, Bool.false_eq_true, if_false]
  cases c2 : env.hyprland && (Backend.swww "swww").is_available env
  case true => simp [c2]
  case false =>
  simp only [c2, Bool.false_eq_true, if_false]
  cases c3 : env.hyprland && (Backend.swww "awww").is_available env
  case true => simp [c3]
  case false =>
  simp only [c3, Bool.false_eq_true, if_false]
  cases c4 : env.hyprland && Backend.hyprpaper.is_available env
  case true => simp [c4]
  case false =>
  simp only [c4, Bool.false_eq_true, if_false]
  cases c5 : env.sway && Backend.swaybg.is_available env
  case true => simp [c5]
  case false =>
  simp only [c5, Bool.false_eq_true, if_false]
  cases c6 : env.is_x11 && Backend.feh.is_available env
  case true => simp [c6]
  case false =>
  simp only [c6, Bool.false_eq_true, if_false]
  cases hav : available env <;> simp [hav]

/-- Witness for C6 at an environment with no signals and no commands, where
auto resolution fails with the no-backend reason. -/
theorem resolve_auto_matches_spec_witness :
    (resolve ⟨"", "", "", "", "", false, false, []⟩ "auto").backend =
        resolveAutoSpec ⟨"", "", "", "", "", false, false, []⟩ ∧
      (resolveAutoSpec ⟨"", "", "", "", "", false, false, []⟩ = none →
        resolve ⟨"", "", "", "", "", false, false, []⟩ "auto" =
          ⟨none, "No supported wallpaper backend detected"⟩) :=
  resolve_auto_matches_spec ⟨"", "", "", "", "", false, false, []⟩

/-- Claim C7: for every environment and explicit (non-"auto") id, `resolve`
returns an "Unknown backend" failure exactly when the id is absent from the
registry, an unavailability failure when the backend is present but
unavailable, and the backend itself when it is present and available. -/
theorem resolve_explicit (env : EnvironmentInfo) (bid : String) (hne : bid ≠ "auto") :
    (get bid = none ↔ bid ∉ registryIds) ∧
      (get bid = none → resolve env bid = ⟨none, "Unknown backend: " ++ bid⟩) ∧
      (∀ b, get bid = some b →
        (b.is_available env = false →
          resolve env bid =
            ⟨none, "Backend \x27" ++ bid ++ "\x27 is not available in this environment."⟩) ∧
        (b.is_available env = true →
          resolve env bid = ⟨some b, "Selected backend \x27" ++ b.id ++ "\x27"⟩)) := by
  refine ⟨get_eq_none_iff bid, ?_, ?_⟩
  · intro hget
    unfold resolve
    rw [if_pos hne, hget]
  · intro b hget
    constructor
    · intro hav
      unfold resolve
      rw [if_pos hne, hget]
      simp [hav]
    · intro hav
      unfold resolve
      rw [if_pos hne, hget]
      simp [hav]

/-- Witness for C7 at id "feh" in an empty environment. -/
theorem resolve_explicit_witness :
    (get "feh" = none ↔ "feh" ∉ registryIds) ∧
      (get "feh" = none →
        resolve ⟨"", "", "", "", "", false, false, []⟩ "feh" =
          ⟨none, "Unknown backend: " ++ "feh"⟩) ∧
      (∀ b, get "feh" = some b →
        (b.is_available ⟨"", "", "", "", "", false, false, []⟩ = false →
          resolve ⟨"", "", "", "", "", false, false, []⟩ "feh" =
            ⟨none, "Backend \x27" ++ "feh" ++ "\x27 is not available in this environment."⟩) ∧
        (b.is_available ⟨"", "", "", "", "", false, false, []⟩ = true →
          resolve ⟨"", "", "", "", "", false, false, []⟩ "feh" =
            ⟨some b, "Selected backend \x27" ++ b.id ++ "\x27"⟩)) :=
  resolve_explicit ⟨"", "", "", "", "", false, false, []⟩ "feh" (by decide)

/-- Claim C4, counterexample: a payload whose "mode" field has the wrong type
(a number) is not treated as "no saved selection" — `load_last_selection`
still returns a state, with mode defaulted to "fill". -/
theorem load_last_selection_wrong_mode_not_none :
    lookupKey [("backend_id", Json.str "feh"), ("image_path", Json.str "/tmp/a.png"),
        ("mode", Json.num 5), ("backend_state", Json.obj [])] "mode" = some (Json.num 5) ∧
      load_last_selection [("backend_id", Json.str "feh"), ("image_path", Json.str "/tmp/a.png"),
        ("mode", Json.num 5), ("backend_state", Json.obj [])] =
        some ⟨"feh", "/tmp/a.png", "fill", []⟩ ∧
      load_last_selection [("backend_id", Json.str "feh"), ("image_path", Json.str "/tmp/a.png"),
        ("mode", Json.num 5), ("backend_state", Json.obj [])] ≠ none :=
  ⟨rfl, rfl, Option.some_ne_none _⟩

/-- Claim C4, amended: `load_last_selection` returns no saved selection
exactly when the backend_id or image_path field is missing or not a string;
a missing or wrong-typed mode defaults to "fill" and a missing or
wrong-typed backend_state defaults to the empty mapping. -/
theorem load_last_selection_fail_closed (payload : List (String × Json)) :
    (load_last_selection payload = none ↔
      (∀ s, lookupKey payload "backend_id" ≠ some (Json.str s)) ∨
      (∀ s, lookupKey payload "image_path" ≠ some (Json.str s))) ∧
      (∀ bid ip, lookupKey payload "backend_id" = some (Json.str bid) →
        lookupKey payload "image_path" = some (Json.str ip) →
        load_last_selection payload =
          some ⟨bid, ip,
            (match lookupKey payload "mode" with
             | some (Json.str s) => s
             | _ => "fill"),
            (match lookupKey payload "backend_state" with
             | some (Json.obj fields) => fields
             | _ => [])⟩) := by
  constructor
  · unfold load_last_selection
    split
    case h_1 bid ip hb hip =>
      simp only [Option.some_ne_none, false_iff]
      push_neg
      exact ⟨⟨bid, hb⟩, ⟨ip, hip⟩⟩
    case h_2 hcatch =>
      simp only [true_iff]
      by_cases hb : ∃ s, lookupKey payload "backend_id" = some (Json.str s)
      · rcases hb with ⟨s, hs⟩
        right
        intro s₂ hs₂
        exact hcatch s s₂ hs hs₂
      · left
        intro s hs
        exact hb ⟨s, hs⟩
  · intro bid ip hb hip
    unfold load_last_selection
    rw [hb, hip]

/-- Witness for C4's amended theorem at a payload with only the two string
fields present. -/
theorem load_last_selection_fail_closed_witness :
    ((load_last_selection [("backend_id", Json.str "feh"),
          ("image_path", Json.str "/tmp/a.png")] = none ↔
      (∀ s, lookupKey [("backend_id", Json.str "feh"),
          ("image_path", Json.str "/tmp/a.png")] "backend_id" ≠ some (Json.str s)) ∨
      (∀ s, lookupKey [("backend_id", Json.str "feh"),
          ("image_path", Json.str "/tmp/a.png")] "image_path" ≠ some (Json.str s))) ∧
      (∀ bid ip, lookupKey [("backend_id", Json.str "feh"),
          ("image_path", Json.str "/tmp/a.png")] "backend_id" = some (Json.str bid) →
        lookupKey [("backend_id", Json.str "feh"),
          ("image_path", Json.str "/tmp/a.png")] "image_path" = some (Json.str ip) →
        load_last_selection [("backend_id", Json.str "feh"),
          ("image_path", Json.str "/tmp/a.png")] =
          some ⟨bid, ip,
            (match lookupKey [("backend_id", Json.str "feh"),
                ("image_path", Json.str "/tmp/a.png")] "mode" with
             | some (Json.str s) => s
             | _ => "fill"),
            (match lookupKey [("backend_id", Json.str "feh"),
                ("image_path", Json.str "/tmp/a.png")] "backend_state" with
             | some (Json.obj fields) => fields
             | _ => [])⟩)) :=
  load_last_selection_fail_closed
    [("backend_id", Json.str "feh"), ("image_path", Json.str "/tmp/a.png")]

/-- Claim C10: when the stored image path does not exist on disk, the default
backend restore fails with a "Wallpaper not found" error and issues no apply
invocation at all (the result does not depend on `applyFn` and the
invocation trace is empty). -/
theorem restore_missing_no_apply (pathExists : String → Bool)
    (applyFn : String → String → BackendResult × List (List String))
    (home : String) (state : WallpaperState)
    (hmiss : pathExists (statePath home state) = false) :
    commandRestore pathExists applyFn home state =
      (⟨false, some ("Wallpaper not found: " ++ statePath home state)⟩, []) := by
  simp [commandRestore, hmiss]

/-- Witness for C10 at a concrete missing path. -/
theorem restore_missing_no_apply_witness :
    (fun _ : String => false) (statePath "/home/u" ⟨"feh", "/tmp/missing.png", "fill", []⟩)
        = false ∧
      commandRestore (fun _ => false) (fun _ _ => (⟨true, none⟩, [["feh"]])) "/home/u"
          ⟨"feh", "/tmp/missing.png", "fill", []⟩ =
        (⟨false, some ("Wallpaper not found: " ++
          statePath "/home/u" ⟨"feh", "/tmp/missing.png", "fill", []⟩)⟩, []) :=
  ⟨rfl, restore_missing_no_apply (fun _ => false) (fun _ _ => (⟨true, none⟩, [["feh"]]))
    "/home/u" ⟨"feh", "/tmp/missing.png", "fill", []⟩ rfl⟩

/-- Claim C3, counterexample: the GNOME backend's apply with
`persist_now=false` issues an invocation that writes the durable settings
database (a `gsettings set` on the background schema), so the soft-preview
contract does not hold for every backend. -/
theorem gnome_preview_durable_write :
    ((gnome_apply (fun _ => ⟨true, none⟩) (fun p => "file://" ++ p) "/tmp/a.png" "fill"
        none 1920 1080 false).2).any writesDurableStore = true := rfl

/-- Claim C3, amended: for the feh backend, `persist_now=false` adds
`--no-fehbg`, so every issued invocation leaves the durable restore file
unchanged, and `persist_now=true` issues a durable invocation; the GNOME
backend ignores `persist_now` entirely, issuing identical (durable)
settings writes either way. -/
theorem persist_flag_durable_effects (run : List String → BackendResult)
    (asUri : String → String) (image_path mode : String) (probed : Option (ℤ × ℤ))
    (sw sh : ℤ) :
    (∀ c ∈ (feh_apply run image_path mode probed sw sh false).2,
        writesDurableStore c = false) ∧
      (image_path ≠ "--no-fehbg" →
        ∀ c ∈ (feh_apply run image_path mode probed sw sh true).2,
          writesDurableStore c = true) ∧
      gnome_apply run asUri image_path mode probed sw sh false =
        gnome_apply run asUri image_path mode probed sw sh true := by
  refine ⟨?_, ?_, rfl⟩
  · intro c hc
    unfold feh_apply at hc
    simp only [List.mem_singleton] at hc
    subst hc
    show decide ("--no-fehbg" ∉ ("--no-fehbg" ::
      ["--" ++ (lookupKey FEH_MODE_MAP (effective_mode mode probed sw sh)).getD "bg-fill",
        image_path])) = false
    simp
  · intro himg c hc
    have hm := fehMode_cases (effective_mode mode probed sw sh)
    unfold feh_apply at hc
    simp only [List.mem_singleton] at hc
    subst hc
    show decide ("--no-fehbg" ∉
      (["--" ++ (lookupKey FEH_MODE_MAP (effective_mode mode probed sw sh)).getD "bg-fill",
        image_path])) = true
    have hy : "--no-fehbg" ≠ image_path := fun h => himg h.symm
    rcases hm with h | h | h | h <;> rw [h] <;> simp [hy]

/-- Witness for C3's amended theorem at concrete inputs. -/
theorem persist_flag_durable_effects_witness :
    (∀ c ∈ (feh_apply (fun _ => ⟨true, none⟩) "/tmp/a.png" "fill" none 0 0 false).2,
        writesDurableStore c = false) ∧
      ("/tmp/a.png" ≠ "--no-fehbg" →
        ∀ c ∈ (feh_apply (fun _ => ⟨true, none⟩) "/tmp/a.png" "fill" none 0 0 true).2,
          writesDurableStore c = true) ∧
      gnome_apply (fun _ => ⟨true, none⟩) (fun p => "file://" ++ p) "/tmp/a.png" "fill"
          none 0 0 false =
        gnome_apply (fun _ => ⟨true, none⟩) (fun p => "file://" ++ p) "/tmp/a.png" "fill"
          none 0 0 true :=
  persist_flag_durable_effects (fun _ => ⟨true, none⟩) (fun p => "file://" ++ p)
    "/tmp/a.png" "fill" none 0 0

theorem runnerStep_closed_mono (s : RunnerState) (e : RunnerEv) (h : s.closed = true) :
    (runnerStep s e).closed = true := by
  cases e
  case submit a => simp [runnerStep, h]
  case take => cases hb : s.busy <;> cases hp : s.pending <;> simp [runnerStep, hb, hp, h]
  case finish => cases hb : s.busy <;> simp [runnerStep, hb, h]
  case shutdown => simp [runnerStep]

theorem runnerRun_closed_mono (t : List RunnerEv) (s : RunnerState) (h : s.closed = true) :
    (runnerRun s t).closed = true := by
  induction t generalizing s with
  | nil => exact h
  | cons e rest ih =>
    simp only [runnerRun, List.foldl_cons]
    exact ih (runnerStep s e) (runnerStep_closed_mono s e h)

def runnerClosedInv (s : RunnerState) : Prop := s.closed = true → s.pending = none

theorem runnerStep_closedInv (s : RunnerState) (e : RunnerEv) (h : runnerClosedInv s) :
    runnerClosedInv (runnerStep s e) := by
  cases e
  case submit a =>
    intro hcc
    by_cases hc : s.closed = true
    · simp only [runnerStep, if_pos hc] at hcc ⊢
      exact h hcc
    · simp only [runnerStep, if_neg hc] at hcc ⊢
      exact absurd hcc hc
  case take =>
    intro hcc
    cases hb : s.busy <;> cases hp : s.pending <;>
      simp only [runnerStep, hb, hp] at hcc ⊢
    · rw [← hp]
      exact h hcc
  case finish =>
    intro hcc
    cases hb : s.busy <;> simp only [runnerStep, hb] at hcc ⊢
    · exact h hcc
    · exact h hcc
  case shutdown =>
    intro _
    simp [runnerStep]

theorem runnerRun_closedInv (t : List RunnerEv) (s : RunnerState) (h : runnerClosedInv s) :
    runnerClosedInv (runnerRun s t) := by
  induction t generalizing s with
  | nil => exact h
  | cons e rest ih =>
    simp only [runnerRun, List.foldl_cons]
    exact ih (runnerStep s e) (runnerStep_closedInv s e h)

theorem runnerStep_avoids (a : ℕ) (s : RunnerState) (e : RunnerEv)
    (hav : runnerAvoids a s) (hne : e ≠ .submit a) :
    runnerAvoids a (runnerStep s e) := by
  obtain ⟨h1, h2, h3⟩ := hav
  cases e
  case submit b =>
    have hba : b ≠ a := fun hh => hne (by rw [hh])
    by_cases hc : s.closed = true
    · simp only [runnerStep, if_pos hc]
      exact ⟨h1, h2, h3⟩
    · simp only [runnerStep, if_neg hc]
      exact ⟨by simpa using fun hh => hba hh, h2, h3⟩
  case take =>
    cases hb : s.busy <;> cases hp : s.pending
    · simp only [runnerStep, hb, hp]
      exact ⟨h1, h2, h3⟩
    case nil.some c =>
      have hca : c ≠ a := fun hh => h1 (hp ▸ hh ▸ rfl)
      simp only [runnerStep, hb, hp, runnerAvoids]
      refine ⟨by simp, by simp [hca.symm], ?_⟩
      simp only [List.mem_append, List.mem_singleton]
      rintro (hh | hh)
      · exact h3 hh
      · exact hca.symm hh
    · simp only [runnerStep, hb, hp]
      exact ⟨h1, h2, h3⟩
    · simp only [runnerStep, hb, hp]
      exact ⟨h1, h2, h3⟩
  case finish =>
    cases hb : s.busy
    · simp only [runnerStep, hb]
      exact ⟨h1, h2, h3⟩
    · simp only [runnerStep, hb]
      exact ⟨h1, by simp, h3⟩
  case shutdown =>
    simp only [runnerStep]
    exact ⟨by simp, h2, h3⟩

theorem runnerRun_avoids (a : ℕ) (t : List RunnerEv) (s : RunnerState)
    (hav : runnerAvoids a s) (hne : RunnerEv.submit a ∉ t) :
    runnerAvoids a (runnerRun s t) := by
  induction t generalizing s with
  | nil => exact hav
  | cons e rest ih =>
    simp only [List.mem_cons, not_or] at hne
    simp only [runnerRun, List.foldl_cons]
    exact ih (runnerStep s e)
      (runnerStep_avoids a s e hav (fun hh => hne.1 hh.symm)) hne.2

def runnerWeakAvoids (a : ℕ) (s : RunnerState) : Prop :=
  a ∉ s.busy ∧ a ∉ s.executed

theorem runnerStep_weakAvoids (a : ℕ) (s : RunnerState) (e : RunnerEv)
    (hav : runnerWeakAvoids a s) (hne : e ≠ .take) :
    runnerWeakAvoids a (runnerStep s e) := by
  obtain ⟨h2, h3⟩ := hav
  cases e
  case submit b =>
    by_cases hc : s.closed = true
    · simp only [runnerStep, if_pos hc]; exact ⟨h2, h3⟩
    · simp only [runnerStep, if_neg hc]; exact ⟨h2, h3⟩
  case take => exact absurd rfl hne
  case finish =>
    cases hb : s.busy
    · simp only [runnerStep, hb]; exact ⟨h2, h3⟩
    · simp only [runnerStep, hb]; exact ⟨by simp, h3⟩
  case shutdown => simp only [runnerStep]; exact ⟨h2, h3⟩

theorem runnerRun_weakAvoids (a : ℕ) (t : List RunnerEv) (s : RunnerState)
    (hav : runnerWeakAvoids a s) (hne : RunnerEv.take ∉ t) :
    runnerWeakAvoids a (runnerRun s t) := by
  induction t generalizing s with
  | nil => exact hav
  | cons e rest ih =>
    simp only [List.mem_cons, not_or] at hne
    simp only [runnerRun, List.foldl_cons]
    exact ih (runnerStep s e)
      (runnerStep_weakAvoids a s e hav (fun hh => hne.1 hh.symm)) hne.2

theorem runnerStep_busy_le (s : RunnerState) (e : RunnerEv)
    (h : s.busy.length ≤ 1) : (runnerStep s e).busy.length ≤ 1 := by
  cases e
  case submit a => by_cases hc : s.closed = true <;> simp [runnerStep, hc, h]
  case take =>
    cases hb : s.busy <;> cases hp : s.pending
    · simp [runnerStep, hb, hp]
    · simp [runnerStep, hb, hp]
    · simp only [runnerStep, hb, hp]
      simpa [hb] using h
    · simp only [runnerStep, hb, hp]
      simpa [hb] using h
  case finish =>
    cases hb : s.busy
    · simp only [runnerStep, hb]
      simpa [hb] using h
    · simp [runnerStep, hb]
  case shutdown => simpa [runnerStep] using h

theorem runnerRun_busy_le (t : List RunnerEv) (s : RunnerState)
    (h : s.busy.length ≤ 1) : (runnerRun s t).busy.length ≤ 1 := by
  induction t generalizing s with
  | nil => exact h
  | cons e rest ih =>
    simp only [runnerRun, List.foldl_cons]
    exact ih (runnerStep s e) (runnerStep_busy_le s e h)


theorem runnerInit_avoids (a : ℕ) : runnerAvoids a runnerInit := by
  simp [runnerAvoids, runnerInit]

theorem runnerRun_append (s : RunnerState) (u v : List RunnerEv) :
    runnerRun s (u ++ v) = runnerRun (runnerRun s u) v := by
  simp [runnerRun, List.foldl_append]

theorem runnerRun_cons (s : RunnerState) (e : RunnerEv) (t : List RunnerEv) :
    runnerRun s (e :: t) = runnerRun (runnerStep s e) t := rfl

theorem runnerStep_submit_closed (s : RunnerState) (b : ℕ) (hc : s.closed = true) :
    runnerStep s (.submit b) = s := by
  show (if s.closed = true then s else { s with pending := some b }) = s
  rw [if_pos hc]

theorem runnerStep_submit_open (s : RunnerState) (b : ℕ) (hc : ¬ s.closed = true) :
    runnerStep s (.submit b) = { s with pending := some b } := by
  show (if s.closed = true then s else { s with pending := some b }) = _
  rw [if_neg hc]

/-- Claim C2: over every event trace of the runner, (i) at most one action is
ever executing at a time; (ii) an action never submitted never executes;
(iii) an action replaced by a later submission before any worker take is
never executed; (iv) an action submitted only after shutdown is never
executed. -/
theorem runner_coalescing_single_slot (t : List RunnerEv) :
    (runnerRun runnerInit t).busy.length ≤ 1 ∧
      (∀ a : ℕ, RunnerEv.submit a ∉ t → a ∉ (runnerRun runnerInit t).executed) ∧
      (∀ t₁ t₂ t₃ : List RunnerEv, ∀ a b : ℕ,
        t = t₁ ++ RunnerEv.submit a :: (t₂ ++ RunnerEv.submit b :: t₃) →
        a ≠ b → RunnerEv.take ∉ t₂ →
        RunnerEv.submit a ∉ t₁ → RunnerEv.submit a ∉ t₂ → RunnerEv.submit a ∉ t₃ →
        a ∉ (runnerRun runnerInit t).executed) ∧
      (∀ u₁ u₂ u₃ : List RunnerEv, ∀ a : ℕ,
        t = u₁ ++ RunnerEv.shutdown :: (u₂ ++ RunnerEv.submit a :: u₃) →
        RunnerEv.submit a ∉ u₁ → RunnerEv.submit a ∉ u₂ → RunnerEv.submit a ∉ u₃ →
        a ∉ (runnerRun runnerInit t).executed) := by
  refine ⟨?_, ?_, ?_, ?_⟩
  · exact runnerRun_busy_le t runnerInit (by simp [runnerInit])
  · intro a h
    exact (runnerRun_avoids a t runnerInit (runnerInit_avoids a) h).2.2
  · intro t₁ t₂ t₃ a b heq hab htake h1 h2 h3
    subst heq
    rw [runnerRun_append, runnerRun_cons, runnerRun_append, runnerRun_cons]
    have hav0 : runnerAvoids a (runnerRun runnerInit t₁) :=
      runnerRun_avoids a t₁ runnerInit (runnerInit_avoids a) h1
    have hci0 : runnerClosedInv (runnerRun runnerInit t₁) :=
      runnerRun_closedInv t₁ runnerInit (by simp [runnerClosedInv, runnerInit])
    have hw1 : runnerWeakAvoids a
        (runnerStep (runnerRun runnerInit t₁) (.submit a)) :=
      runnerStep_weakAvoids a _ _ ⟨hav0.2.1, hav0.2.2⟩ (by simp)
    have hci1 : runnerClosedInv (runnerStep (runnerRun runnerInit t₁) (.submit a)) :=
      runnerStep_closedInv _ _ hci0
    have hw2 : runnerWeakAvoids a
        (runnerRun (runnerStep (runnerRun runnerInit t₁) (.submit a)) t₂) :=
      runnerRun_weakAvoids a t₂ _ hw1 htake
    have hci2 : runnerClosedInv
        (runnerRun (runnerStep (runnerRun runnerInit t₁) (.submit a)) t₂) :=
      runnerRun_closedInv t₂ _ hci1
    have hav3 : runnerAvoids a
        (runnerStep (runnerRun (runnerStep (runnerRun runnerInit t₁) (.submit a)) t₂)
          (.submit b)) := by
      by_cases hc : (runnerRun (runnerStep (runnerRun runnerInit t₁) (.submit a))
          t₂).closed = true
      · rw [runnerStep_submit_closed _ b hc]
        exact ⟨by rw [hci2 hc]; simp, hw2.1, hw2.2⟩
      · rw [runnerStep_submit_open _ b hc]
        refine ⟨?_, hw2.1, hw2.2⟩
        simp only [ne_eq, Option.some.injEq]
        exact fun hh => hab hh.symm
    exact (runnerRun_avoids a t₃ _ hav3 h3).2.2
  · intro u₁ u₂ u₃ a heq h1 h2 h3
    subst heq
    rw [runnerRun_append, runnerRun_cons, runnerRun_append, runnerRun_cons]
    have hav0 : runnerAvoids a (runnerRun runnerInit u₁) :=
      runnerRun_avoids a u₁ runnerInit (runnerInit_avoids a) h1
    have hav1 : runnerAvoids a (runnerStep (runnerRun runnerInit u₁) .shutdown) :=
      runnerStep_avoids a _ _ hav0 (by simp)
    have hcl1 : (runnerStep (runnerRun runnerInit u₁) .shutdown).closed = true := by
      simp [runnerStep]
    have hav2 : runnerAvoids a
        (runnerRun (runnerStep (runnerRun runnerInit u₁) .shutdown) u₂) :=
      runnerRun_avoids a u₂ _ hav1 h2
    have hcl2 : (runnerRun (runnerStep (runnerRun runnerInit u₁) .shutdown)
        u₂).closed = true :=
      runnerRun_closed_mono u₂ _ hcl1
    rw [runnerStep_submit_closed _ a hcl2]
    exact (runnerRun_avoids a u₃ _ hav2 h3).2.2

end Fay

namespace Fay

/-- Witness for C2: a burst of two submissions where only the second runs,
and a submission after shutdown that never runs. -/
theorem runner_coalescing_single_slot_witness :
    (runnerRun runnerInit [RunnerEv.submit 1, RunnerEv.submit 2, RunnerEv.take,
        RunnerEv.finish]).busy.length ≤ 1 ∧
      1 ∉ (runnerRun runnerInit [RunnerEv.submit 1, RunnerEv.submit 2, RunnerEv.take,
        RunnerEv.finish]).executed ∧
      3 ∉ (runnerRun runnerInit [RunnerEv.shutdown, RunnerEv.submit 3,
        RunnerEv.take]).executed :=
  ⟨(runner_coalescing_single_slot [RunnerEv.submit 1, RunnerEv.submit 2, RunnerEv.take,
      RunnerEv.finish]).1,
    (runner_coalescing_single_slot [RunnerEv.submit 1, RunnerEv.submit 2, RunnerEv.take,
      RunnerEv.finish]).2.2.1 [] [] [RunnerEv.take, RunnerEv.finish] 1 2 rfl
      (by decide) (by decide) (by decide) (by decide) (by decide),
    (runner_coalescing_single_slot [RunnerEv.shutdown, RunnerEv.submit 3,
      RunnerEv.take]).2.2.2 [] [] [RunnerEv.take] 3 rfl
      (by decide) (by decide) (by decide)⟩

theorem gcd_fields (fs : ThumbFS) (st : ThumbStore) (image : String) :
    (get_cached_dimensions fs st image).1.pending = st.pending ∧
      (get_cached_dimensions fs st image).1.pending_set = st.pending_set ∧
      (get_cached_dimensions fs st image).1.failed = st.failed := by
  unfold get_cached_dimensions
  split
  · exact ⟨rfl, rfl, rfl⟩
  · split
    · exact ⟨rfl, rfl, rfl⟩
    · exact ⟨rfl, rfl, rfl⟩

theorem request_path (fs : ThumbFS) (st : ThumbStore) (image : String) :
    (request fs st image).2 = fs.path_for image := by
  unfold request
  dsimp only
  split
  · split
    · rfl
    · rfl
  · split
    · rfl
    · rfl

theorem gcd_idem (fs : ThumbFS) (st : ThumbStore) (image : String) :
    get_cached_dimensions fs (get_cached_dimensions fs st image).1 image =
      get_cached_dimensions fs st image := by
  rcases h1 : lookupKey st.dims_cache image with _ | d
  · rcases h2 : read_dimensions_file fs (dimPathFor (fs.path_for image)) with _ | d
    · unfold get_cached_dimensions
      simp only [h1, h2]
    · unfold get_cached_dimensions
      simp only [h1, h2]
      simp [lookupKey]
  · unfold get_cached_dimensions
    simp only [h1]

theorem remember_fields (fs : ThumbFS) (st : ThumbStore) (image : String) (w h : ℤ) :
    (remember_dimensions fs st image w h).1.pending = st.pending ∧
      (remember_dimensions fs st image w h).1.pending_set = st.pending_set ∧
      (remember_dimensions fs st image w h).1.failed = st.failed := by
  unfold remember_dimensions
  split
  · exact ⟨rfl, rfl, rfl⟩
  · exact ⟨rfl, rfl, rfl⟩

theorem process_failed_mono (k : String) (n : ℕ) (fs : ThumbFS) (st : ThumbStore)
    (h : k ∈ st.failed) : k ∈ (process fs st n).1.failed := by
  induction n generalizing fs st with
  | zero => exact h
  | succ n ih =>
    unfold process
    split
    · exact h
    case h_2 image thumb rest hpend =>
      dsimp only
      split
      · rcases hg : get_cached_dimensions fs
            { st with pending := rest, pending_set := st.pending_set.erase thumb }
            image with ⟨st₂, dims⟩
        have hf₂ : st₂.failed = st.failed := by
          have hh := (gcd_fields fs
            { st with pending := rest, pending_set := st.pending_set.erase thumb }
            image).2.2
          rw [hg] at hh
          exact hh
        simp only [hg]
        split
        · exact ih fs st₂ (hf₂ ▸ h)
        · split
          case h_1 w hdim hw =>
            exact ih _ _ (by rw [(remember_fields fs st₂ image w hdim).2.2, hf₂]; exact h)
          case h_2 =>
            exact ih _ _ (hf₂ ▸ h)
      · rcases hbo : build_thumbnail fs image thumb with ⟨⟨ok, dims⟩, fs₁⟩
        simp only [hbo]
        rcases dims with _ | ⟨w, hd⟩ <;> cases ok <;> dsimp only
        · exact ih _ _ (List.mem_cons_of_mem _ h)
        · exact ih _ _ h
        · simp only [if_neg (by simp : ¬ (false = true))]
          exact ih _ _ (List.mem_cons_of_mem _ h)
        · simp only [if_true]
          exact ih _ _ (by
            rw [(remember_fields fs₁
              { st with pending := rest, pending_set := st.pending_set.erase thumb }
              image w hd).2.2]
            exact h)

theorem request_failed_noop (fs : ThumbFS) (st : ThumbStore) (image : String)
    (hfail : fs.path_for image ∈ st.failed) :
    (request fs st image).2 = fs.path_for image ∧
      (request fs st image).1.pending = st.pending ∧
      (request fs st image).1.pending_set = st.pending_set ∧
      (request fs st image).1.failed = st.failed := by
  rcases hg : get_cached_dimensions fs st image with ⟨st₁, dims⟩
  have hp : st₁.pending = st.pending := by
    have hh := (gcd_fields fs st image).1
    rw [hg] at hh
    exact hh
  have hps : st₁.pending_set = st.pending_set := by
    have hh := (gcd_fields fs st image).2.1
    rw [hg] at hh
    exact hh
  have hf : st₁.failed = st.failed := by
    have hh := (gcd_fields fs st image).2.2
    rw [hg] at hh
    exact hh
  unfold request
  simp only [hg]
  by_cases hex : fs.fileExists (fs.path_for image) = true
  · rw [if_pos hex, if_neg (fun hh => hh.2.2 (hf ▸ hfail))]
    exact ⟨rfl, hp, hps, hf⟩
  · rw [if_neg hex, if_neg (fun hh => hh.2 (hf ▸ hfail))]
    exact ⟨rfl, hp, hps, hf⟩

theorem request_twice_fresh (fs : ThumbFS) (image : String)
    (hmiss : fs.fileExists (fs.path_for image) = false) :
    (request fs thumbInit image).1.pending = [(image, fs.path_for image)] ∧
      (request fs (request fs thumbInit image).1 image).1.pending =
        [(image, fs.path_for image)] := by
  rcases hg : get_cached_dimensions fs thumbInit image with ⟨st₁, dims⟩
  have hp : st₁.pending = [] := by
    have hh := (gcd_fields fs thumbInit image).1
    rw [hg] at hh
    exact hh
  have hps : st₁.pending_set = [] := by
    have hh := (gcd_fields fs thumbInit image).2.1
    rw [hg] at hh
    exact hh
  have hf : st₁.failed = [] := by
    have hh := (gcd_fields fs thumbInit image).2.2
    rw [hg] at hh
    exact hh
  have h1 : request fs thumbInit image =
      ({ st₁ with
          pending := st₁.pending ++ [(image, fs.path_for image)],
          pending_set := fs.path_for image :: st₁.pending_set }, fs.path_for image) := by
    unfold request
    simp only [hg]
    rw [if_neg (by simp [hmiss]),
      if_pos ⟨by simp [hps], by simp [hf]⟩]
  have hpend₂ : (request fs thumbInit image).1.pending = [(image, fs.path_for image)] := by
    rw [h1]
    dsimp only
    rw [hp]
    simp
  have hpset₂ : (request fs thumbInit image).1.pending_set =
      fs.path_for image :: st₁.pending_set := by
    rw [h1]
  refine ⟨hpend₂, ?_⟩
  generalize hR : (request fs thumbInit image).1 = R at hpend₂ hpset₂ ⊢
  rcases hg2 : get_cached_dimensions fs R image with ⟨st₃, d₂⟩
  have hp₃ : st₃.pending = R.pending := by
    have hh := (gcd_fields fs R image).1
    rw [hg2] at hh
    exact hh
  have hps₃ : st₃.pending_set = R.pending_set := by
    have hh := (gcd_fields fs R image).2.1
    rw [hg2] at hh
    exact hh
  have hkey : fs.path_for image ∈ st₃.pending_set := by
    rw [hps₃, hpset₂]
    exact List.mem_cons_self _ _
  unfold request
  simp only [hg2]
  rw [if_neg (by simp [hmiss]), if_neg (fun hh => hh.1 hkey)]
  dsimp only
  rw [hp₃, hpend₂]

theorem process_failure_marks_failed (fs : ThumbFS) (st : ThumbStore)
    (image thumb : String) (rest : List (String × String)) (n : ℕ)
    (hpend : st.pending = (image, thumb) :: rest)
    (hmiss : fs.fileExists thumb = false)
    (hfail : (fs.probe image).1 ≤ 0 ∨ (fs.probe image).2 ≤ 0 ∨
      fs.exportOk thumb = false) :
    thumb ∈ (process fs st (n + 1)).1.failed := by
  have hbo : build_thumbnail fs image thumb = ((false, none), fs) := by
    rcases hpr : fs.probe image with ⟨w, hgt⟩
    simp only [hpr] at hfail
    unfold build_thumbnail
    simp only [hpr]
    by_cases hd : w ≤ 0 ∨ hgt ≤ 0
    · rw [if_pos hd]
    · rcases hfail with h | h | h
      · exact absurd (Or.inl h) hd
      · exact absurd (Or.inr h) hd
      · rw [if_neg hd, if_neg (by simp [h])]
  unfold process
  split
  case h_1 heq =>
    rw [hpend] at heq
    simp at heq
  case h_2 image₂ thumb₂ rest₂ heq =>
    rw [hpend] at heq
    injection heq with heq1 heq2
    injection heq1 with heqi heqt
    subst heqi
    subst heqt
    subst heq2
    rw [if_neg (by simp [hmiss])]
    simp only [hbo]
    exact process_failed_mono thumb n _ _ (List.mem_cons_self _ _)

theorem request_failed_eq (fs : ThumbFS) (st : ThumbStore) (image : String) :
    (request fs st image).1.failed = st.failed := by
  rcases hg : get_cached_dimensions fs st image with ⟨st₁, dims⟩
  have hf : st₁.failed = st.failed := by
    have hh := (gcd_fields fs st image).2.2
    rw [hg] at hh
    exact hh
  unfold request
  simp only [hg]
  by_cases hex : fs.fileExists (fs.path_for image) = true
  · rw [if_pos hex]
    split
    · exact hf
    · exact hf
  · rw [if_neg hex]
    split
    · exact hf
    · exact hf

/-- Claim C8: `request` always returns the destination path; from a fresh
store, requesting a not-yet-built key twice enqueues exactly one build job;
requesting a failed key returns the path but leaves the queue and the failed
set unchanged; the failed set only grows under `request` and `process`; and a
failed build marks its key failed for the rest of the process lifetime. -/
theorem thumbnail_enqueue_once (fs : ThumbFS) (st : ThumbStore) (image : String)
    (n : ℕ) :
    (request fs st image).2 = fs.path_for image ∧
      (fs.fileExists (fs.path_for image) = false →
        (request fs thumbInit image).1.pending = [(image, fs.path_for image)] ∧
        (request fs (request fs thumbInit image).1 image).1.pending =
          [(image, fs.path_for image)]) ∧
      (fs.path_for image ∈ st.failed →
        (request fs st image).2 = fs.path_for image ∧
        (request fs st image).1.pending = st.pending ∧
        (request fs st image).1.failed = st.failed) ∧
      (∀ k ∈ st.failed,
        k ∈ (request fs st image).1.failed ∧ k ∈ (process fs st n).1.failed) ∧
      (∀ image₂ thumb rest, st.pending = (image₂, thumb) :: rest →
        fs.fileExists thumb = false →
        ((fs.probe image₂).1 ≤ 0 ∨ (fs.probe image₂).2 ≤ 0 ∨
          fs.exportOk thumb = false) →
        thumb ∈ (process fs st (n + 1)).1.failed) := by
  refine ⟨request_path fs st image, fun hmiss => request_twice_fresh fs image hmiss,
    fun hfl => ⟨(request_failed_noop fs st image hfl).1,
      (request_failed_noop fs st image hfl).2.1,
      (request_failed_noop fs st image hfl).2.2.2⟩,
    fun k hk => ⟨by rw [request_failed_eq]; exact hk, process_failed_mono k n fs st hk⟩,
    fun image₂ thumb rest hp hm hf =>
      process_failure_marks_failed fs st image₂ thumb rest n hp hm hf⟩

/-- Witness for C8: a concrete file system where nothing exists and every
build fails. -/
theorem thumbnail_enqueue_once_witness :
    (request ⟨fun s => s ++ ".png", fun _ => false, fun _ => none, fun _ => (0, 0),
        fun _ => false⟩ thumbInit "a").1.pending = [("a", "a.png")] ∧
      (request ⟨fun s => s ++ ".png", fun _ => false, fun _ => none, fun _ => (0, 0),
          fun _ => false⟩
        (request ⟨fun s => s ++ ".png", fun _ => false, fun _ => none, fun _ => (0, 0),
          fun _ => false⟩ thumbInit "a").1 "a").1.pending = [("a", "a.png")] ∧
      "b.png" ∈ (process ⟨fun s => s ++ ".png", fun _ => false, fun _ => none,
        fun _ => (0, 0), fun _ => false⟩ ⟨[("b", "b.png")], ["b.png"], [], []⟩ 1).1.failed :=
  ⟨((thumbnail_enqueue_once ⟨fun s => s ++ ".png", fun _ => false, fun _ => none,
      fun _ => (0, 0), fun _ => false⟩ thumbInit "a" 0).2.1 rfl).1,
    ((thumbnail_enqueue_once ⟨fun s => s ++ ".png", fun _ => false, fun _ => none,
      fun _ => (0, 0), fun _ => false⟩ thumbInit "a" 0).2.1 rfl).2,
    (thumbnail_enqueue_once ⟨fun s => s ++ ".png", fun _ => false, fun _ => none,
      fun _ => (0, 0), fun _ => false⟩ ⟨[("b", "b.png")], ["b.png"], [], []⟩ "b" 0).2.2.2.2
      "b" "b.png" [] rfl rfl (Or.inl (le_refl 0))⟩

theorem eraseKeyFirst_length {α : Type} (c : List (String × α)) (key : String) (v : α)
    (h : lookupKey c key = some v) : (eraseKeyFirst c key).length + 1 = c.length := by
  induction c with
  | nil => simp [lookupKey] at h
  | cons kv rest ih =>
    rcases kv with ⟨k, w⟩
    by_cases hk : k = key
    · simp [eraseKeyFirst, hk]
    · simp only [lookupKey, if_neg hk] at h
      simp only [eraseKeyFirst, if_neg hk, List.length_cons]
      rw [← ih h]

theorem moveToEnd_length (c : List (String × ℕ)) (key : String) :
    (moveToEnd c key).length = c.length := by
  unfold moveToEnd
  rcases h : lookupKey c key with _ | v
  · rfl
  · have hl := eraseKeyFirst_length c key v h
    simp only [List.length_append, List.length_cons, List.length_nil]
    omega

theorem texGet_hit (fs : ThumbFS) (gpu : String → ℕ) (ts : ThumbStore) (tc : TexCache)
    (image : String) (tex : ℕ)
    (hl : lookupKey tc.cache (fs.path_for image) = some tex) :
    (texGet fs gpu ts tc image).2.1.cache = moveToEnd tc.cache (fs.path_for image) ∧
      (texGet fs gpu ts tc image).2.1.cache.length = tc.cache.length ∧
      (texGet fs gpu ts tc image).2.1.failed = tc.failed ∧
      (texGet fs gpu ts tc image).2.2.1 = [] ∧
      (texGet fs gpu ts tc image).2.2.2 = some tex := by
  have hkey : (request fs ts image).2 = fs.path_for image := request_path fs ts image
  have hmain : texGet fs gpu ts tc image =
      ((request fs ts image).1,
        { tc with cache := moveToEnd tc.cache (fs.path_for image) }, [], some tex) := by
    unfold texGet
    simp only [hkey, hl]
  rw [hmain]
  exact ⟨rfl, moveToEnd_length tc.cache (fs.path_for image), rfl, rfl, rfl⟩

theorem texGet_evict (fs : ThumbFS) (gpu : String → ℕ) (ts : ThumbStore) (tc : TexCache)
    (image : String) (k₀ : String) (oldest : ℕ) (rest : List (String × ℕ))
    (hc : tc.cache = (k₀, oldest) :: rest)
    (hfull : tc.cache.length = tc.max_items)
    (hl : lookupKey tc.cache (fs.path_for image) = none)
    (hnf : fs.path_for image ∉ tc.failed)
    (hex : fs.fileExists (fs.path_for image) = true)
    (htex : ¬ gpu (fs.path_for image) = 0)
    (hold : oldest ≠ 0) :
    (texGet fs gpu ts tc image).2.1.cache =
        rest ++ [(fs.path_for image, gpu (fs.path_for image))] ∧
      (texGet fs gpu ts tc image).2.2.1 = [oldest] ∧
      (texGet fs gpu ts tc image).2.2.2 = some (gpu (fs.path_for image)) ∧
      (texGet fs gpu ts tc image).2.1.cache.length = tc.max_items := by
  have hkey : (request fs ts image).2 = fs.path_for image := request_path fs ts image
  have hgrow : tc.max_items < (tc.cache ++ [(fs.path_for image,
      gpu (fs.path_for image))]).length := by
    simp [List.length_append, ← hfull]
  have hmain : texGet fs gpu ts tc image =
      ((request fs ts image).1,
        { tc with cache := rest ++ [(fs.path_for image, gpu (fs.path_for image))] },
        [oldest], some (gpu (fs.path_for image))) := by
    unfold texGet
    simp only [hkey, hl]
    rw [if_neg hnf, if_neg (by simp [hex]), if_neg htex, if_pos hgrow]
    rw [hc]
    simp only [List.cons_append]
    rw [if_pos hold]
  rw [hmain]
  refine ⟨rfl, rfl, rfl, ?_⟩
  have hr : rest.length + 1 = tc.max_items := by
    rw [← hfull, hc]
    simp
  simp [List.length_append]
  omega

theorem texGet_bound (fs : ThumbFS) (gpu : String → ℕ) (ts : ThumbStore) (tc : TexCache)
    (image : String) (hle : tc.cache.length ≤ tc.max_items) :
    (texGet fs gpu ts tc image).2.1.cache.length ≤ tc.max_items := by
  obtain ⟨mi, cachec, failedc⟩ := tc
  dsimp only at hle ⊢
  have hkey : (request fs ts image).2 = fs.path_for image := request_path fs ts image
  unfold texGet
  simp only [hkey]
  split
  case h_1 tex hl =>
    dsimp only
    rw [moveToEnd_length]
    exact hle
  case h_2 hl =>
    split
    · exact hle
    · split
      · exact hle
      · split
        · exact hle
        · split
          case isTrue hgl =>
            rcases cachec with _ | ⟨⟨k₀, old⟩, restc⟩
            · simp only [List.nil_append]
              omega
            · simp only [List.cons_append]
              simp only [List.length_append, List.length_cons, List.length_nil] at hle ⊢
              omega
          case isFalse hgl =>
            dsimp only
            simp only [List.length_append, List.length_cons, List.length_nil] at hgl ⊢
            omega

/-- Claim C9: `TextureCache.get` keeps the cache within `max_items`; a hit
moves the key to the most-recently-used end without changing the size,
releasing nothing; and inserting a new texture into a full cache evicts
exactly the least-recently-used entry, releasing its (non-zero) GPU handle
immediately, keeping the size at `max_items`. -/
theorem texture_cache_lru (fs : ThumbFS) (gpu : String → ℕ) (ts : ThumbStore)
    (tc : TexCache) (image : String) :
    (tc.cache.length ≤ tc.max_items →
      (texGet fs gpu ts tc image).2.1.cache.length ≤ tc.max_items) ∧
      (∀ tex, lookupKey tc.cache (fs.path_for image) = some tex →
        (texGet fs gpu ts tc image).2.1.cache = moveToEnd tc.cache (fs.path_for image) ∧
        (texGet fs gpu ts tc image).2.1.cache.length = tc.cache.length ∧
        (texGet fs gpu ts tc image).2.1.failed = tc.failed ∧
        (texGet fs gpu ts tc image).2.2.1 = [] ∧
        (texGet fs gpu ts tc image).2.2.2 = some tex) ∧
      (∀ k₀ oldest rest, tc.cache = (k₀, oldest) :: rest →
        tc.cache.length = tc.max_items →
        lookupKey tc.cache (fs.path_for image) = none →
        fs.path_for image ∉ tc.failed →
        fs.fileExists (fs.path_for image) = true →
        ¬ gpu (fs.path_for image) = 0 → oldest ≠ 0 →
        (texGet fs gpu ts tc image).2.1.cache =
            rest ++ [(fs.path_for image, gpu (fs.path_for image))] ∧
          (texGet fs gpu ts tc image).2.2.1 = [oldest] ∧
          (texGet fs gpu ts tc image).2.2.2 = some (gpu (fs.path_for image)) ∧
          (texGet fs gpu ts tc image).2.1.cache.length = tc.max_items) :=
  ⟨fun hle => texGet_bound fs gpu ts tc image hle,
    fun tex hl => texGet_hit fs gpu ts tc image tex hl,
    fun k₀ oldest rest hc hfull hl hnf hex htex hold =>
      texGet_evict fs gpu ts tc image k₀ oldest rest hc hfull hl hnf hex htex hold⟩

/-- Witness for C9: a hit on a cached key and an eviction from a full
one-slot cache. -/
theorem texture_cache_lru_witness :
    (texGet ⟨fun s => s ++ ".png", fun _ => true, fun _ => none, fun _ => (0, 0),
        fun _ => false⟩ (fun _ => 3) thumbInit texInit "a").2.1.cache.length ≤
        texInit.max_items ∧
      (texGet ⟨fun s => s ++ ".png", fun _ => true, fun _ => none, fun _ => (0, 0),
        fun _ => false⟩ (fun _ => 3) thumbInit ⟨24, [("a.png", 5)], []⟩ "a").2.2.2 =
        some 5 ∧
      (texGet ⟨fun s => s ++ ".png", fun _ => true, fun _ => none, fun _ => (0, 0),
        fun _ => false⟩ (fun _ => 3) thumbInit ⟨1, [("old.png", 7)], []⟩ "a").2.1.cache =
        [("a.png", 3)] ∧
      (texGet ⟨fun s => s ++ ".png", fun _ => true, fun _ => none, fun _ => (0, 0),
        fun _ => false⟩ (fun _ => 3) thumbInit ⟨1, [("old.png", 7)], []⟩ "a").2.2.1 =
        [7] :=
  ⟨(texture_cache_lru ⟨fun s => s ++ ".png", fun _ => true, fun _ => none,
      fun _ => (0, 0), fun _ => false⟩ (fun _ => 3) thumbInit texInit "a").1
      (Nat.zero_le _),
    ((texture_cache_lru ⟨fun s => s ++ ".png", fun _ => true, fun _ => none,
      fun _ => (0, 0), fun _ => false⟩ (fun _ => 3) thumbInit
      ⟨24, [("a.png", 5)], []⟩ "a").2.1 5 rfl).2.2.2.2,
    ((texture_cache_lru ⟨fun s => s ++ ".png", fun _ => true, fun _ => none,
      fun _ => (0, 0), fun _ => false⟩ (fun _ => 3) thumbInit
      ⟨1, [("old.png", 7)], []⟩ "a").2.2 "old.png" 7 [] rfl rfl rfl (by simp) rfl
      (by decide) (by decide)).1,
    ((texture_cache_lru ⟨fun s => s ++ ".png", fun _ => true, fun _ => none,
      fun _ => (0, 0), fun _ => false⟩ (fun _ => 3) thumbInit
      ⟨1, [("old.png", 7)], []⟩ "a").2.2 "old.png" 7 [] rfl rfl rfl (by simp) rfl
      (by decide) (by decide)).2.1⟩

end Fay
